import Mathlib

/-!
# Light meter firmware: sample queue and send/acknowledge loop

A shallow embedding of `sensor.c`, `comm.c` and the queue definition of `main.c`.

* `meas_button_interrupt` (sensor.c) is the producer: it builds a record from the
  test counter and puts it on `sensor_queue` without waiting.
* `write_sensor_ccc`, `sensor_indicate_start`, `sensor_indicate_end` (comm.c) are the
  callbacks the Bluetooth stack invokes.
* `comm_thread_entry` (comm.c) is the sender loop.  It is embedded as a step
  function over an explicit program counter, one step per statement that
  touches shared state or may block, so that the callbacks of the other
  contexts can be interleaved between any two statements of the loop.

The kernel and Bluetooth primitives (`k_msgq_put`, `k_msgq_get`, `k_mutex_lock`,
`k_mutex_unlock`, `k_condvar_wait`, `k_condvar_signal`, `bt_gatt_indicate`) are
not part of the sources; each is modelled by the small definition or step that
carries a note saying so.

Every call the code makes to one of these primitives, and every log line, is
appended to `State.trace`, so that statements of the form "this iteration makes
no call to ..." are statements about the trace.
-/

namespace LightMeter

/-! ## Data model -/

/-- Record `struct sensor_data` of sensor.h: one `uint32_t` field. -/
structure sensor_data where
  lumens : Nat
deriving DecidableEq, Repr

/-- Number of slots of `sensor_queue`: third argument of `K_MSGQ_DEFINE` in main.c. -/
def SENSOR_QUEUE_MAX_MSGS : Nat := 16

/-- Value of `sizeof(struct sensor_data)`: one `uint32_t`, first size argument of
`K_MSGQ_DEFINE` in main.c. -/
def SIZEOF_SENSOR_DATA : Nat := 4

/-- Modulus of `uint32_t` arithmetic. -/
def UINT32_MOD : Nat := 2 ^ 32

/-- Modelled from the spec: the header constant `BT_GATT_CCC_NOTIFY` of the Bluetooth
stack is not part of the sources; it is the descriptor value that enables plain
notifications (bit 0). -/
def BT_GATT_CCC_NOTIFY : Nat := 1

/-- Modelled from the spec: the header constant `BT_GATT_CCC_INDICATE` of the Bluetooth
stack is not part of the sources; it is the descriptor value "enable confirmable
notifications" (bit 1). -/
def BT_GATT_CCC_INDICATE : Nat := 2

/-- Modelled from the spec: the errno constant `ENOMSG` of the kernel headers is not part
of the sources; `k_msgq_put` returns its negation when it gives up without waiting. -/
def ENOMSG : Int := 35

/-- Log lines of sensor.c and comm.c, one constructor per format string. -/
inductive LogMsg
  /-- sensor.c: "Test data sent to queue". -/
  | test_data_sent
  /-- comm.c: "Sensor indication is set to: %d". -/
  | indication_set (value : Nat)
  /-- comm.c: "Indication %s" with "fail" when err is non-zero, else "success". -/
  | indication_result (failed : Bool)
  /-- comm.c: "Indication complete". -/
  | indication_complete
  /-- comm.c: "Sensor data received: %d". -/
  | sensor_data_received (lumens : Nat)
  /-- comm.c: "Indicating new value". -/
  | indicating_new_value
  /-- comm.c: "Start waiting on indication condition". -/
  | start_waiting
  /-- comm.c: "Indication condition set". -/
  | condition_set
  /-- comm.c: "Cannot complete sensor indication" (LOG_ERR). -/
  | cannot_complete
  /-- comm.c: "No indication set up, data dropped". -/
  | data_dropped
deriving DecidableEq, Repr

/-- Target of the pointer stored in `sensor_indicate_params.data`: the only address
the code ever stores there is that of the local `data` of `comm_thread_entry`. -/
inductive DataPtr
  | local_data
deriving DecidableEq, Repr

/-- Calls to kernel, Bluetooth and logging primitives, and writes to the send
parameters, in the order the code performs them. -/
inductive Call
  /-- Call `k_msgq_put(&sensor_queue, &d, K_NO_WAIT)` and the value it returned. -/
  | msgq_put (d : sensor_data) (ret : Int)
  /-- Call `k_msgq_get(&sensor_queue, &data, K_FOREVER)` and the record it delivered. -/
  | msgq_get (d : sensor_data)
  /-- Call of a `LOG_INF` or `LOG_ERR` statement. -/
  | log (m : LogMsg)
  /-- Assignment to `sensor_indicate_params.data` and `.len`. -/
  | params_write (p : DataPtr) (len : Nat)
  /-- Call `k_mutex_lock(&indicating_mutex, K_FOREVER)`. -/
  | mutex_lock
  /-- Call `k_mutex_unlock(&indicating_mutex)`. -/
  | mutex_unlock
  /-- Call `bt_gatt_indicate(NULL, &sensor_indicate_params)`, the payload and length
  the parameters designate at the call, and the value it returned. -/
  | gatt_indicate (payload : Option sensor_data) (len : Nat) (ret : Int)
  /-- Call `k_condvar_wait(&indicating_condvar, &indicating_mutex, K_FOREVER)`. -/
  | condvar_wait
  /-- Call `k_condvar_signal(&indicating_condvar)`. -/
  | condvar_signal
deriving DecidableEq, Repr

/-- Per-send fields of `struct bt_gatt_indicate_params` that the loop rebinds. -/
structure bt_gatt_indicate_params where
  data : Option DataPtr
  len : Nat
deriving DecidableEq, Repr

/-- Program counter of `comm_thread_entry`, after `comm_init` has returned. -/
inductive Pc
  /-- At `k_msgq_get` (line 202). -/
  | get
  /-- At `if (sensor_indicate)` (line 205). -/
  | check
  /-- At the two assignments to `sensor_indicate_params` (lines 208-209). -/
  | bind
  /-- At `k_mutex_lock` (line 211). -/
  | lock
  /-- At the call of `bt_gatt_indicate` (line 212). -/
  | indicate
  /-- At the call of `k_condvar_wait`, not yet entered (line 214). -/
  | wait
  /-- Inside `k_condvar_wait`: mutex released, pended on the condition variable. -/
  | blocked
  /-- Inside `k_condvar_wait`: signalled, about to take the mutex again and return. -/
  | woken
  /-- At `k_mutex_unlock` (line 219). -/
  | unlock
deriving DecidableEq, Repr

/-- Global state of the firmware core together with the local state of the sender loop. -/
structure State where
  /-- Contents of `sensor_queue` (main.c), oldest record first. -/
  sensor_queue : List sensor_data
  /-- Variable `counter` of sensor.c. -/
  counter : Nat
  /-- Variable `sensor_indicate` of comm.c, a `uint8_t`: the subscription gate. -/
  sensor_indicate : Nat
  /-- Variable `sensor_indicate_params` of comm.c. -/
  sensor_indicate_params : bt_gatt_indicate_params
  /-- Lock count of `indicating_mutex`; the sender loop is the only context that
  ever locks it, so a non-zero count means "held by the sender". -/
  indicating_mutex : Nat
  /-- Local `data` of `comm_thread_entry`; `none` while still uninitialised. -/
  data : Option sensor_data
  /-- Program counter of `comm_thread_entry`. -/
  pc : Pc
  /-- Transport side: number of accepted indications whose completion endpoint
  (the `destroy` callback) has not been invoked yet. -/
  pending : Nat
  /-- Calls performed so far. -/
  trace : List Call
deriving DecidableEq, Repr

/-- State after the static initialisers and a successful `comm_init`: empty queue,
`counter = 0x12345600`, `sensor_indicate = 0U`, mutex free, nothing in flight. -/
def init : State where
  sensor_queue := []
  counter := 0x12345600
  sensor_indicate := 0
  sensor_indicate_params := ⟨none, 0⟩
  indicating_mutex := 0
  data := none
  pc := Pc.get
  pending := 0
  trace := []

/-! ## Kernel queue primitives -/

/-- Modelled from the spec: `k_msgq_put` with `K_NO_WAIT` is kernel code that is not part
of the sources.  "try_enqueue(record): non-blocking; returns false (and the record is
discarded) if the queue is full"; otherwise the record is copied to the tail.  Returns
the new contents and the return value (0 on success, `-ENOMSG` when full). -/
def k_msgq_put (q : List sensor_data) (d : sensor_data) : List sensor_data × Int :=
  if q.length < SENSOR_QUEUE_MAX_MSGS then (q ++ [d], 0) else (q, -ENOMSG)

/-- Modelled from the spec: `k_msgq_get` with `K_FOREVER` is kernel code that is not part
of the sources.  "dequeue_blocking(): blocks the calling context indefinitely until a
record is available"; `none` stands for the caller staying blocked, otherwise the
oldest record and the remaining contents are returned. -/
def k_msgq_get : List sensor_data → Option (sensor_data × List sensor_data)
  | [] => none
  | d :: q => some (d, q)

/-! ## sensor.c -/

/-- Function `meas_button_interrupt` of sensor.c: build the record from `counter`,
post-increment `counter` (a `uint32_t`), put the record without waiting, discard the
return value of `k_msgq_put`, log. -/
def meas_button_interrupt (s : State) : State :=
  let data : sensor_data := ⟨s.counter⟩
  let r := k_msgq_put s.sensor_queue data
  { s with
    counter := (s.counter + 1) % UINT32_MOD
    sensor_queue := r.1
    trace := s.trace ++ [Call.msgq_put data r.2, Call.log LogMsg.test_data_sent] }

/-! ## comm.c callbacks -/

/-- Function `write_sensor_ccc` of comm.c. -/
def write_sensor_ccc (s : State) (value : Nat) : State :=
  { s with
    sensor_indicate := if value = BT_GATT_CCC_INDICATE then 1 else 0
    trace := s.trace ++ [Call.log (LogMsg.indication_set value)] }

/-- Function `sensor_indicate_start` of comm.c: logs the result only. -/
def sensor_indicate_start (s : State) (err : Nat) : State :=
  { s with trace := s.trace ++ [Call.log (LogMsg.indication_result (err != 0))] }

/-- Modelled from the spec: `k_condvar_signal` is kernel code that is not part of the
sources.  "callback signals the condition; the blocked sender wakes": a thread pended
on the condition variable is made ready.  The spec is silent on a signal that finds no
thread pended; as for every condition variable the kernel keeps no count of signals,
so then nothing changes. -/
def k_condvar_signal (s : State) : State :=
  { s with
    pc := if s.pc = Pc.blocked then Pc.woken else s.pc
    trace := s.trace ++ [Call.condvar_signal] }

/-- Function `sensor_indicate_end` of comm.c: log, then signal the condition variable. -/
def sensor_indicate_end (s : State) : State :=
  k_condvar_signal { s with trace := s.trace ++ [Call.log LogMsg.indication_complete] }

/-! ## comm.c sender loop -/

/-- Record that `sensor_indicate_params.data` designates, read through the pointer. -/
def payload (s : State) : Option sensor_data :=
  match s.sensor_indicate_params.data with
  | none => none
  | some DataPtr.local_data => s.data

/-- One step of the `while (1)` body of `comm_thread_entry` (comm.c, lines 200-224).
`ret` is the value `bt_gatt_indicate` returns if this step is the call of it; `none`
means the thread is blocked and cannot step.

The kernel calls are modelled from the spec, as they are not part of the sources:
`k_mutex_lock` and `k_mutex_unlock` raise and lower the lock count (no other context
locks `indicating_mutex`), `k_condvar_wait` releases the mutex, pends until signalled
and then takes the mutex again, and an accepted `bt_gatt_indicate` leaves one
completion pending on the transport side. -/
def comm_thread_entry (s : State) (ret : Int) : Option State :=
  match s.pc with
  | Pc.get =>
    match k_msgq_get s.sensor_queue with
    | none => none
    | some (d, q) =>
      some { s with
        sensor_queue := q
        data := some d
        pc := Pc.check
        trace := s.trace ++ [Call.msgq_get d, Call.log (LogMsg.sensor_data_received d.lumens)] }
  | Pc.check =>
    if s.sensor_indicate ≠ 0 then
      some { s with
        pc := Pc.bind
        trace := s.trace ++ [Call.log LogMsg.indicating_new_value] }
    else
      some { s with
        pc := Pc.get
        trace := s.trace ++ [Call.log LogMsg.data_dropped] }
  | Pc.bind =>
    some { s with
      sensor_indicate_params := ⟨some DataPtr.local_data, SIZEOF_SENSOR_DATA⟩
      pc := Pc.lock
      trace := s.trace ++ [Call.params_write DataPtr.local_data SIZEOF_SENSOR_DATA] }
  | Pc.lock =>
    some { s with
      indicating_mutex := s.indicating_mutex + 1
      pc := Pc.indicate
      trace := s.trace ++ [Call.mutex_lock] }
  | Pc.indicate =>
    if ret = 0 then
      some { s with
        pending := s.pending + 1
        pc := Pc.wait
        trace := s.trace ++
          [Call.gatt_indicate (payload s) s.sensor_indicate_params.len ret,
           Call.log LogMsg.start_waiting] }
    else
      some { s with
        pc := Pc.unlock
        trace := s.trace ++
          [Call.gatt_indicate (payload s) s.sensor_indicate_params.len ret,
           Call.log LogMsg.cannot_complete] }
  | Pc.wait =>
    some { s with
      indicating_mutex := s.indicating_mutex - 1
      pc := Pc.blocked
      trace := s.trace ++ [Call.condvar_wait] }
  | Pc.blocked => none
  | Pc.woken =>
    some { s with
      indicating_mutex := s.indicating_mutex + 1
      pc := Pc.unlock
      trace := s.trace ++ [Call.log LogMsg.condition_set] }
  | Pc.unlock =>
    some { s with
      indicating_mutex := s.indicating_mutex - 1
      pc := Pc.get
      trace := s.trace ++ [Call.mutex_unlock] }

/-! ## Step relation of the whole core -/

/-- Events of the three contexts: the sender loop, the button interrupt, and the
callbacks of the Bluetooth stack. -/
inductive Event
  /-- The sender loop executes its next statement; `ret` is what `bt_gatt_indicate`
  returns if that statement is the call of it. -/
  | comm (ret : Int)
  /-- The button interrupt fires `meas_button_interrupt`. -/
  | button
  /-- The remote peer writes `value` to the control descriptor. -/
  | ccc_write (value : Nat)
  /-- The transport completes an accepted indication with status `err`. -/
  | indicate_done (err : Nat)
deriving DecidableEq, Repr

/-- Modelled from the spec: the completion path of the Bluetooth stack is not part of the
sources.  "a registered completion endpoint invoked exactly once per accepted send with
a status": enabled only while an accepted indication is pending; it invokes `func`
(`sensor_indicate_start`) with the status and then `destroy` (`sensor_indicate_end`),
as registered by `comm_init`. -/
def indicate_complete (s : State) (err : Nat) : Option State :=
  if s.pending = 0 then none
  else some (sensor_indicate_end (sensor_indicate_start { s with pending := s.pending - 1 } err))

/-- One step of the core; `none` when the event is not enabled in `s`. -/
def step (s : State) : Event → Option State
  | Event.comm ret => comm_thread_entry s ret
  | Event.button => some (meas_button_interrupt s)
  | Event.ccc_write value => some (write_sensor_ccc s value)
  | Event.indicate_done err => indicate_complete s err

/-- Run a schedule, a list of events, from `s`. -/
def run (s : State) : List Event → Option State
  | [] => some s
  | e :: es => (step s e).bind fun t => run t es

/-- Log lines among a list of calls. -/
def logOutput : List Call → List LogMsg
  | [] => []
  | Call.log m :: cs => m :: logOutput cs
  | _ :: cs => logOutput cs

/-- Calls of `bt_gatt_indicate` among a list of calls: payload, length, return value. -/
def sends : List Call → List (Option sensor_data × Nat × Int)
  | [] => []
  | Call.gatt_indicate p len ret :: cs => (p, len, ret) :: sends cs
  | _ :: cs => sends cs

/-- Number of `k_msgq_put` calls that returned failure among a list of calls. -/
def drops : List Call → Nat
  | [] => 0
  | Call.msgq_put _ ret :: cs => (if ret = 0 then 0 else 1) + drops cs
  | _ :: cs => drops cs

/-- Records delivered by `k_msgq_get` among a list of calls. -/
def gets : List Call → List sensor_data
  | [] => []
  | Call.msgq_get d :: cs => d :: gets cs
  | _ :: cs => gets cs

/-- Put the records of a list one after the other with `k_msgq_put`, no get in
between: final contents and the return values in call order. -/
def put_all (q : List sensor_data) : List sensor_data → List sensor_data × List Int
  | [] => (q, [])
  | d :: ds =>
    ((put_all (k_msgq_put q d).1 ds).1, (k_msgq_put q d).2 :: (put_all (k_msgq_put q d).1 ds).2)

/-- Get `n` records one after the other with `k_msgq_get`: the records in the order
delivered and the remaining contents; `none` if a get would block. -/
def get_all : Nat → List sensor_data → Option (List sensor_data × List sensor_data)
  | 0, q => some ([], q)
  | n + 1, q =>
    match k_msgq_get q with
    | none => none
    | some (d, q1) => (get_all n q1).map fun r => (d :: r.1, r.2)

/-- Records the producer generates in `n` consecutive triggers when `counter = c`. -/
def produced (c : Nat) : Nat → List sensor_data
  | 0 => []
  | n + 1 => ⟨c⟩ :: produced ((c + 1) % UINT32_MOD) n

/-- State after `n` consecutive triggers of the button interrupt and nothing else. -/
def triggers (n : Nat) (s : State) : State :=
  Nat.iterate meas_button_interrupt n s

/-- Records whose `k_msgq_put` returned 0 among a list of calls, in call order. -/
def accepted : List Call → List sensor_data
  | [] => []
  | Call.msgq_put d ret :: cs => if ret = 0 then d :: accepted cs else accepted cs
  | _ :: cs => accepted cs

/-- Entry of `sends` for a record passed whole to an accepting `bt_gatt_indicate`. -/
def sent (e : sensor_data) : Option sensor_data × Nat × Int :=
  (some e, SIZEOF_SENSOR_DATA, 0)

/-- Record the sender loop has dequeued and not yet passed to `bt_gatt_indicate`. -/
def in_hand (s : State) : List sensor_data :=
  match s.pc with
  | Pc.check => s.data.toList
  | Pc.bind => s.data.toList
  | Pc.lock => s.data.toList
  | Pc.indicate => s.data.toList
  | _ => []

/-- Schedule of one send cycle with an accepting transport: the six sender steps from
the get to the entry into `k_condvar_wait`, the completion invoked while the sender
is pended there, and the two sender steps that return from the wait and unlock. -/
def send_cycle : List Event :=
  List.replicate 6 (Event.comm 0) ++ [Event.indicate_done 0] ++ List.replicate 2 (Event.comm 0)

/-- Schedule of `n` consecutive send cycles. -/
def deliver : Nat → List Event
  | 0 => []
  | n + 1 => send_cycle ++ deliver n

/-- Events of the runs in which the gate stays open and the transport accepts every
send: sender steps with `bt_gatt_indicate` returning 0, button interrupts,
completions at any time, and descriptor writes of the enabling value only. -/
def gate_open_accepting : Event → Bool
  | Event.comm ret => decide (ret = 0)
  | Event.button => true
  | Event.ccc_write value => decide (value = BT_GATT_CCC_INDICATE)
  | Event.indicate_done _ => true

/-- Schedule from `init` that brings the sender loop to the call of `bt_gatt_indicate`:
the peer enables indications, the button is pressed once, and the loop gets the
record, tests the gate, binds the parameters and locks the mutex. -/
def schedule_to_indicate : List Event :=
  [Event.ccc_write BT_GATT_CCC_INDICATE, Event.button, Event.comm 0, Event.comm 0,
    Event.comm 0, Event.comm 0]

/-- State that `schedule_to_indicate` reaches from `init`. -/
def state_at_indicate : State where
  sensor_queue := []
  counter := 0x12345601
  sensor_indicate := 1
  sensor_indicate_params := ⟨some DataPtr.local_data, 4⟩
  indicating_mutex := 1
  data := some ⟨0x12345600⟩
  pc := Pc.indicate
  pending := 0
  trace :=
    [Call.log (LogMsg.indication_set 2), Call.msgq_put ⟨0x12345600⟩ 0,
      Call.log LogMsg.test_data_sent, Call.msgq_get ⟨0x12345600⟩,
      Call.log (LogMsg.sensor_data_received 0x12345600),
      Call.log LogMsg.indicating_new_value, Call.params_write DataPtr.local_data 4,
      Call.mutex_lock]

/-- State one sender step after `state_at_indicate`, the call having returned 0: one
accepted indication is outstanding and the loop is about to enter `k_condvar_wait`. -/
def state_in_flight : State :=
  { state_at_indicate with
    pc := Pc.wait
    pending := 1
    trace := state_at_indicate.trace ++
      [Call.gatt_indicate (some ⟨0x12345600⟩) 4 0, Call.log LogMsg.start_waiting] }

/-! ## Invariant of the reachable states -/

/-- Lock count of `indicating_mutex` the sender holds at each program point. -/
def mutexAt : Pc → Nat
  | Pc.indicate => 1
  | Pc.wait => 1
  | Pc.unlock => 1
  | _ => 0

/-- Program points at which the send parameters of the current iteration are bound. -/
def boundAt : Pc → Bool
  | Pc.get => false
  | Pc.check => false
  | Pc.bind => false
  | _ => true

/-- Inductive invariant of the step relation. -/
structure Inv (s : State) : Prop where
  pending_le : s.pending ≤ 1
  pending_pc : s.pending = 1 → s.pc = Pc.wait ∨ s.pc = Pc.blocked
  mutex_pc : s.indicating_mutex = mutexAt s.pc
  params_pc : boundAt s.pc = true →
    s.sensor_indicate_params = ⟨some DataPtr.local_data, SIZEOF_SENSOR_DATA⟩
  data_pc : s.pc ≠ Pc.get → s.data ≠ none
  queue_le : s.sensor_queue.length ≤ SENSOR_QUEUE_MAX_MSGS

/-- Bookkeeping invariant of the runs with the gate open and an accepting transport:
the accepted records are those already got followed by the queue contents, and the
records got are those already sent followed by the one in the hands of the loop. -/
structure Fifo (s : State) : Prop where
  gate : s.sensor_indicate ≠ 0
  inv : Inv s
  queue : accepted s.trace = gets s.trace ++ s.sensor_queue
  sends : sends s.trace ++ (in_hand s).map sent = (gets s.trace).map sent

theorem inv_init : Inv init := by
  constructor <;> simp [init, mutexAt, boundAt]

theorem inv_comm {s t : State} {ret : Int} (h : Inv s)
    (hs : comm_thread_entry s ret = some t) : Inv t := by
  obtain ⟨h1, h2, h3, h4, h5, h6⟩ := h
  obtain ⟨q, c, g, p, m, d, pc, n, tr⟩ := s
  cases pc <;> simp only [comm_thread_entry] at hs
  case get =>
    cases q with
    | nil => simp [k_msgq_get] at hs
    | cons x xs =>
      simp only [k_msgq_get, Option.some.injEq] at hs
      subst hs
      constructor <;> simp_all [mutexAt, boundAt]
      omega
  case check =>
    split at hs <;> (simp only [Option.some.injEq] at hs; subst hs) <;>
      constructor <;> simp_all [mutexAt, boundAt]
  case indicate =>
    split at hs <;> (simp only [Option.some.injEq] at hs; subst hs) <;>
      constructor <;> simp_all [mutexAt, boundAt]
    omega
  case blocked => simp at hs
  all_goals
    simp only [Option.some.injEq] at hs
    subst hs
    constructor <;> simp_all [mutexAt, boundAt]

theorem inv_step {s t : State} {e : Event} (h : Inv s) (hs : step s e = some t) : Inv t := by
  cases e with
  | comm ret => exact inv_comm h hs
  | button =>
    simp only [step, Option.some.injEq] at hs
    subst hs
    obtain ⟨h1, h2, h3, h4, h5, h6⟩ := h
    constructor <;> try simpa [meas_button_interrupt] using ‹_›
    simp only [meas_button_interrupt, k_msgq_put]
    split
    · simp; omega
    · simpa using h6
  | ccc_write value =>
    simp only [step, Option.some.injEq] at hs
    subst hs
    obtain ⟨h1, h2, h3, h4, h5, h6⟩ := h
    constructor <;> simpa [write_sensor_ccc] using ‹_›
  | indicate_done err =>
    simp only [step, indicate_complete] at hs
    split at hs
    · simp at hs
    · simp only [Option.some.injEq] at hs
      subst hs
      obtain ⟨h1, h2, h3, h4, h5, h6⟩ := h
      have hp : s.pending = 1 := by omega
      rcases h2 hp with hpc | hpc <;>
        constructor <;>
        simp_all [sensor_indicate_end, sensor_indicate_start, k_condvar_signal, mutexAt, boundAt]

theorem inv_run {es : List Event} {s t : State} (h : Inv s) (hs : run s es = some t) : Inv t := by
  induction es generalizing s with
  | nil =>
    simp only [run, Option.some.injEq] at hs
    exact hs ▸ h
  | cons e es ih =>
    simp only [run] at hs
    cases hst : step s e with
    | none => simp [hst] at hs
    | some u =>
      rw [hst] at hs
      exact ih (inv_step h hst) hs

/-! ## Subscription gate -/

/-- C8: for every value written to the control descriptor, `write_sensor_ccc` opens the
gate (the sender loop tests `sensor_indicate` for non-zero) exactly when the value is
`BT_GATT_CCC_INDICATE`; the disable value 0, the plain-notification value, the
combination of the notify and indicate bits and every other value close it; the new
gate state is the same whatever the previous state was. -/
theorem write_sensor_ccc_gate (s s2 : State) (value : Nat) :
    ((write_sensor_ccc s value).sensor_indicate ≠ 0 ↔ value = BT_GATT_CCC_INDICATE) ∧
    ((write_sensor_ccc s value).sensor_indicate = 1 ↔ value = BT_GATT_CCC_INDICATE) ∧
    ((write_sensor_ccc s value).sensor_indicate = 0 ↔ value ≠ BT_GATT_CCC_INDICATE) ∧
    (write_sensor_ccc s 0).sensor_indicate = 0 ∧
    (write_sensor_ccc s BT_GATT_CCC_NOTIFY).sensor_indicate = 0 ∧
    (write_sensor_ccc s (BT_GATT_CCC_NOTIFY ||| BT_GATT_CCC_INDICATE)).sensor_indicate = 0 ∧
    (write_sensor_ccc s value).sensor_indicate = (write_sensor_ccc s2 value).sensor_indicate ∧
    step s (Event.ccc_write value) = some (write_sensor_ccc s value) := by
  refine ⟨?_, ?_, ?_, ?_, ?_, ?_, ?_, ?_⟩
  · by_cases h : value = BT_GATT_CCC_INDICATE <;> simp [write_sensor_ccc, h]
  · by_cases h : value = BT_GATT_CCC_INDICATE <;> simp [write_sensor_ccc, h]
  · by_cases h : value = BT_GATT_CCC_INDICATE <;> simp [write_sensor_ccc, h]
  · simp [write_sensor_ccc, BT_GATT_CCC_INDICATE]
  · simp [write_sensor_ccc, BT_GATT_CCC_INDICATE, BT_GATT_CCC_NOTIFY]
  · simp [write_sensor_ccc, BT_GATT_CCC_INDICATE, BT_GATT_CCC_NOTIFY]
  · simp [write_sensor_ccc]
  · rfl

/-! ## Sample queue -/

theorem put_all_fst (ds q : List sensor_data) :
    (put_all q ds).1 = q ++ ds.take (SENSOR_QUEUE_MAX_MSGS - q.length) := by
  induction ds generalizing q with
  | nil => simp [put_all]
  | cons d ds ih =>
    simp only [put_all, ih, k_msgq_put]
    split
    · rename_i h
      have : SENSOR_QUEUE_MAX_MSGS - q.length = (SENSOR_QUEUE_MAX_MSGS - (q.length + 1)) + 1 := by
        omega
      rw [this]
      simp
    · rename_i h
      have : SENSOR_QUEUE_MAX_MSGS - q.length = 0 := by omega
      simp [this]

theorem put_all_failures (ds q : List sensor_data) :
    ((put_all q ds).2.filter fun r => r != 0).length =
      ds.length - (SENSOR_QUEUE_MAX_MSGS - q.length) := by
  induction ds generalizing q with
  | nil => simp [put_all]
  | cons d ds ih =>
    simp only [put_all, k_msgq_put]
    split
    · rename_i h
      simp [ih]
      omega
    · rename_i h
      simp [ih, ENOMSG]
      omega

theorem get_all_length (q : List sensor_data) : get_all q.length q = some (q, []) := by
  induction q with
  | nil => rfl
  | cons d q ih => simp [get_all, k_msgq_get, ih]

theorem logOutput_append (a b : List Call) :
    logOutput (a ++ b) = logOutput a ++ logOutput b := by
  induction a with
  | nil => rfl
  | cons c cs ih => cases c <;> simp [logOutput, ih]

theorem sends_append (a b : List Call) : sends (a ++ b) = sends a ++ sends b := by
  induction a with
  | nil => rfl
  | cons c cs ih => cases c <;> simp [sends, ih]

theorem drops_append (a b : List Call) : drops (a ++ b) = drops a + drops b := by
  induction a with
  | nil => simp [drops]
  | cons c cs ih => cases c <;> simp [drops, ih, Nat.add_assoc]

theorem gets_append (a b : List Call) : gets (a ++ b) = gets a ++ gets b := by
  induction a with
  | nil => rfl
  | cons c cs ih => cases c <;> simp [gets, ih]

theorem triggers_succ (n : Nat) (s : State) :
    triggers (n + 1) s = triggers n (meas_button_interrupt s) := rfl

theorem run_buttons (n : Nat) (s : State) :
    run s (List.replicate n Event.button) = some (triggers n s) := by
  induction n generalizing s with
  | zero => rfl
  | succ n ih => simp [List.replicate_succ, run, step, ih, triggers_succ]

theorem triggers_queue (n : Nat) (s : State) :
    (triggers n s).sensor_queue = (put_all s.sensor_queue (produced s.counter n)).1 := by
  induction n generalizing s with
  | zero => rfl
  | succ n ih => rw [triggers_succ, ih]; rfl

theorem triggers_drops (n : Nat) (s : State) :
    drops (triggers n s).trace =
      drops s.trace + ((put_all s.sensor_queue (produced s.counter n)).2.filter fun r => r != 0).length := by
  induction n generalizing s with
  | zero => simp [triggers, put_all, produced]
  | succ n ih =>
    rw [triggers_succ, ih]
    simp only [meas_button_interrupt, drops_append, drops, produced, put_all, List.filter_cons]
    split <;> simp_all
    omega

theorem triggers_frame (n : Nat) (s : State) :
    (triggers n s).pc = s.pc ∧ (triggers n s).sensor_indicate = s.sensor_indicate ∧
    (triggers n s).pending = s.pending ∧ (triggers n s).indicating_mutex = s.indicating_mutex ∧
    gets (triggers n s).trace = gets s.trace ∧ sends (triggers n s).trace = sends s.trace := by
  induction n generalizing s with
  | zero => simp [triggers]
  | succ n ih =>
    rw [triggers_succ]
    obtain ⟨h1, h2, h3, h4, h5, h6⟩ := ih (meas_button_interrupt s)
    rw [h1, h2, h3, h4, h5, h6]
    simp [meas_button_interrupt, gets_append, sends_append, gets, sends]

theorem produced_length (n c : Nat) : (produced c n).length = n := by
  induction n generalizing c with
  | zero => rfl
  | succ n ih => simp [produced, ih]

theorem run_append (a b : List Event) (s : State) :
    run s (a ++ b) = (run s a).bind fun t => run t b := by
  induction a generalizing s with
  | nil => rfl
  | cons e es ih =>
    simp only [List.cons_append, run]
    cases step s e with
    | none => rfl
    | some u => simp [ih]

theorem drain_closed (ret : Int) (q : List sensor_data) (s : State)
    (hpc : s.pc = Pc.get) (hg : s.sensor_indicate = 0) (hq : s.sensor_queue = q) :
    ∃ t, run s (List.replicate (2 * q.length) (Event.comm ret)) = some t ∧
      t.pc = Pc.get ∧ t.sensor_queue = [] ∧ gets t.trace = gets s.trace ++ q ∧
      sends t.trace = sends s.trace ∧ drops t.trace = drops s.trace := by
  induction q generalizing s with
  | nil => exact ⟨s, rfl, hpc, hq, by simp, rfl, rfl⟩
  | cons d q ih =>
    obtain ⟨q0, c, g, p, m, d0, pc, n, tr⟩ := s
    simp only at hpc hg hq
    subst hpc hg hq
    have h2 : 2 * (d :: q).length = (2 * q.length + 1) + 1 := by simp; omega
    rw [h2, List.replicate_succ, List.replicate_succ]
    simp only [run, step, comm_thread_entry, k_msgq_get, Option.bind_some, ne_eq,
      not_true_eq_false, ite_false]
    obtain ⟨t, h1, h3, h4, h5, h6, h7⟩ := ih
      { sensor_queue := q, counter := c, sensor_indicate := 0, sensor_indicate_params := p,
        indicating_mutex := m, data := some d, pc := Pc.get, pending := n,
        trace := (tr ++ [Call.msgq_get d, Call.log (LogMsg.sensor_data_received d.lumens)]) ++
          [Call.log LogMsg.data_dropped] } rfl rfl rfl
    refine ⟨t, h1, h3, h4, ?_, ?_, ?_⟩
    · rw [h5]; simp [gets_append, gets]
    · rw [h6]; simp [sends_append, sends]
    · rw [h7]; simp [drops_append, drops]

/-- C3: for every queue state with at most 16 records, `k_msgq_put` (no wait) on a
non-full queue appends the record at the tail, returns 0 and raises the occupancy by
one; on a full queue it returns failure and leaves the contents unchanged, the record
being discarded; the occupancy stays within 0..16 after a put and after a get; the
producer `meas_button_interrupt` changes the queue by exactly this put; and putting
any 17 records into the empty queue with no get fails exactly once and retains the
first 16, which 16 gets deliver oldest first, leaving the queue empty. -/
theorem bounded_enqueue (q : List sensor_data) (d : sensor_data)
    (hq : q.length ≤ SENSOR_QUEUE_MAX_MSGS) :
    SENSOR_QUEUE_MAX_MSGS = 16 ∧
    (q.length < SENSOR_QUEUE_MAX_MSGS →
      k_msgq_put q d = (q ++ [d], 0) ∧ (k_msgq_put q d).1.length = q.length + 1) ∧
    (q.length = SENSOR_QUEUE_MAX_MSGS →
      (k_msgq_put q d).2 ≠ 0 ∧ (k_msgq_put q d).1 = q) ∧
    (k_msgq_put q d).1.length ≤ SENSOR_QUEUE_MAX_MSGS ∧
    (∀ e r, k_msgq_get q = some (e, r) → q = e :: r ∧ r.length ≤ SENSOR_QUEUE_MAX_MSGS) ∧
    (∀ s : State, s.sensor_queue = q →
      (meas_button_interrupt s).sensor_queue = (k_msgq_put q ⟨s.counter⟩).1) ∧
    (∀ ds : List sensor_data, ds.length = SENSOR_QUEUE_MAX_MSGS + 1 →
      (put_all [] ds).1 = ds.take SENSOR_QUEUE_MAX_MSGS ∧
      (put_all [] ds).1.length = SENSOR_QUEUE_MAX_MSGS ∧
      ((put_all [] ds).2.filter fun r => r != 0).length = 1 ∧
      get_all SENSOR_QUEUE_MAX_MSGS (put_all [] ds).1 =
        some (ds.take SENSOR_QUEUE_MAX_MSGS, [])) := by
  refine ⟨rfl, ?_, ?_, ?_, ?_, ?_, ?_⟩
  · intro h
    simp [k_msgq_put, h]
  · intro h
    simp [k_msgq_put, h, ENOMSG]
  · unfold k_msgq_put
    split
    · simp; omega
    · exact hq
  · intro e r h
    cases q with
    | nil => simp [k_msgq_get] at h
    | cons x xs =>
      simp only [k_msgq_get, Option.some.injEq, Prod.mk.injEq] at h
      obtain ⟨rfl, rfl⟩ := h
      simp only [List.length_cons] at hq
      exact ⟨rfl, by omega⟩
  · intro s hs
    simp [meas_button_interrupt, hs]
  · intro ds hds
    have hlen : (ds.take SENSOR_QUEUE_MAX_MSGS).length = SENSOR_QUEUE_MAX_MSGS := by
      simp [hds]
    have hfst : (put_all [] ds).1 = ds.take SENSOR_QUEUE_MAX_MSGS := by
      simp [put_all_fst]
    refine ⟨hfst, by rw [hfst, hlen], ?_, ?_⟩
    · rw [put_all_failures, hds]
      simp
    · rw [hfst]
      have := get_all_length (ds.take SENSOR_QUEUE_MAX_MSGS)
      rwa [hlen] at this

theorem bounded_enqueue_witness :
    k_msgq_put [] ⟨0x12345600⟩ = ([⟨0x12345600⟩], 0) ∧
    (k_msgq_put [] ⟨0x12345600⟩).1.length = 1 :=
  (bounded_enqueue [] ⟨0x12345600⟩ (by decide)).2.1 (by decide)

/-- C4 as stated fails: from the initial state (empty queue, gate closed), after 20
consecutive triggers of the producer and no get, the queue does not hold the 5th to
the 20th record produced; it holds the 1st to the 16th. -/
theorem overload_not_most_recent :
    init.sensor_queue = [] ∧ init.sensor_indicate = 0 ∧
    run init (List.replicate 20 Event.button) = some (triggers 20 init) ∧
    (triggers 20 init).sensor_queue ≠ (produced init.counter 20).drop 4 ∧
    (triggers 20 init).sensor_queue = (produced init.counter 20).take 16 := by
  decide

/-- C4 amended: starting from an empty queue with the gate closed and the sender loop at
its get, after 20 consecutive triggers of the producer and no get in between, exactly
4 puts have failed and the queue holds the first 16 of the 20 records produced (the
1st to the 16th); the sender loop then gets exactly these, oldest first, sends none
of them and leaves the queue empty. -/
theorem overload_keeps_oldest (s : State) (ret : Int)
    (hq : s.sensor_queue = []) (hg : s.sensor_indicate = 0) (hpc : s.pc = Pc.get) :
    run s (List.replicate 20 Event.button) = some (triggers 20 s) ∧
    drops (triggers 20 s).trace = drops s.trace + 4 ∧
    (triggers 20 s).sensor_queue = (produced s.counter 20).take 16 ∧
    ((produced s.counter 20).take 16).length = 16 ∧
    ∃ t, run (triggers 20 s) (List.replicate 32 (Event.comm ret)) = some t ∧
      gets t.trace = gets s.trace ++ (produced s.counter 20).take 16 ∧
      t.sensor_queue = [] ∧ t.pc = Pc.get ∧ sends t.trace = sends s.trace ∧
      drops t.trace = drops s.trace + 4 := by
  have hqueue : (triggers 20 s).sensor_queue = (produced s.counter 20).take 16 := by
    rw [triggers_queue, put_all_fst, hq]
    simp [SENSOR_QUEUE_MAX_MSGS]
  have hlen : ((produced s.counter 20).take 16).length = 16 := by
    simp [produced_length]
  have hdrops : drops (triggers 20 s).trace = drops s.trace + 4 := by
    rw [triggers_drops, put_all_failures, hq, produced_length]
    simp [SENSOR_QUEUE_MAX_MSGS]
  obtain ⟨f1, f2, -, -, f5, f6⟩ := triggers_frame 20 s
  obtain ⟨t, h1, h2, h3, h4, h5, h6⟩ :=
    drain_closed ret ((produced s.counter 20).take 16) (triggers 20 s)
      (by rw [f1, hpc]) (by rw [f2, hg]) hqueue
  rw [hlen] at h1
  exact ⟨run_buttons 20 s, hdrops, hqueue, hlen, t, h1, by rw [h4, f5], h3, h2,
    by rw [h5, f6], by rw [h6, hdrops]⟩

theorem overload_keeps_oldest_witness :
    drops (triggers 20 init).trace = drops init.trace + 4 ∧
    (triggers 20 init).sensor_queue = (produced init.counter 20).take 16 :=
  ⟨(overload_keeps_oldest init 0 rfl rfl rfl).2.1, (overload_keeps_oldest init 0 rfl rfl rfl).2.2.1⟩

/-- C9 as stated fails: the trigger on the full queue reached by 16 triggers from the
initial state is rejected, the first trigger on the empty queue is accepted, and the
log lines of the two triggers are the same. -/
theorem enqueue_failure_not_logged :
    (triggers 16 init).sensor_queue.length = SENSOR_QUEUE_MAX_MSGS ∧
    (k_msgq_put (triggers 16 init).sensor_queue ⟨(triggers 16 init).counter⟩).2 ≠ 0 ∧
    (k_msgq_put init.sensor_queue ⟨init.counter⟩).2 = 0 ∧
    logOutput ((meas_button_interrupt (triggers 16 init)).trace.drop
        (triggers 16 init).trace.length) =
      logOutput ((meas_button_interrupt init).trace.drop init.trace.length) := by
  decide

/-- C9 amended: for every trigger of the producer on a full queue, the record is
rejected and the queue unchanged; the producer does not block and returns normally
(the step is enabled and total), escalating nothing: it discards the return value of
the put and logs the single line "Test data sent to queue", the same line as any
other trigger logs, so the failure does not show in its log output. -/
theorem enqueue_failure_silent (s : State)
    (hfull : s.sensor_queue.length = SENSOR_QUEUE_MAX_MSGS) :
    step s Event.button = some (meas_button_interrupt s) ∧
    (k_msgq_put s.sensor_queue ⟨s.counter⟩).2 ≠ 0 ∧
    (meas_button_interrupt s).sensor_queue = s.sensor_queue ∧
    (meas_button_interrupt s).trace =
      s.trace ++ [Call.msgq_put ⟨s.counter⟩ (-ENOMSG), Call.log LogMsg.test_data_sent] ∧
    (meas_button_interrupt s).pc = s.pc ∧
    (meas_button_interrupt s).pending = s.pending ∧
    (meas_button_interrupt s).indicating_mutex = s.indicating_mutex ∧
    (meas_button_interrupt s).sensor_indicate = s.sensor_indicate ∧
    ∀ s2 : State,
      logOutput ((meas_button_interrupt s2).trace.drop s2.trace.length) =
        [LogMsg.test_data_sent] := by
  refine ⟨rfl, ?_, ?_, ?_, rfl, rfl, rfl, rfl, ?_⟩
  · simp [k_msgq_put, hfull, ENOMSG]
  · simp [meas_button_interrupt, k_msgq_put, hfull]
  · simp [meas_button_interrupt, k_msgq_put, hfull]
  · intro s2
    simp [meas_button_interrupt, logOutput]

theorem enqueue_failure_silent_witness :
    (meas_button_interrupt (triggers 16 init)).sensor_queue = (triggers 16 init).sensor_queue :=
  (enqueue_failure_silent (triggers 16 init) (by decide)).2.2.1

/-! ## Sender loop -/

/-- C1: in every state reachable from the initial state by any schedule of sender steps,
button interrupts, descriptor writes and completions, at most one accepted indication
is outstanding, and whenever the sender loop is at the call of `bt_gatt_indicate` no
accepted indication is outstanding; so the call is never made while an earlier
accepted indication still awaits `sensor_indicate_end`, and after the call at most
one is outstanding. -/
theorem at_most_one_in_flight (tr : List Event) (s : State) (h : run init tr = some s) :
    s.pending ≤ 1 ∧
    (s.pc = Pc.indicate → s.pending = 0) ∧
    (s.pending = 1 → s.pc = Pc.wait ∨ s.pc = Pc.blocked) ∧
    (∀ ret t, s.pc = Pc.indicate → step s (Event.comm ret) = some t →
      s.pending = 0 ∧ t.pending ≤ 1 ∧
      sends t.trace = sends s.trace ++ [(payload s, s.sensor_indicate_params.len, ret)]) := by
  have hinv := inv_run inv_init h
  have h0 : s.pc = Pc.indicate → s.pending = 0 := by
    intro hpc
    have h1 := hinv.pending_le
    have h2 := hinv.pending_pc
    by_contra hne
    have h3 : s.pending = 1 := by omega
    rcases h2 h3 with h4 | h4 <;> simp [hpc] at h4
  refine ⟨hinv.pending_le, h0, hinv.pending_pc, ?_⟩
  intro ret t hpc hstep
  refine ⟨h0 hpc, (inv_step hinv hstep).pending_le, ?_⟩
  simp only [step, comm_thread_entry, hpc] at hstep
  split at hstep <;> (simp only [Option.some.injEq] at hstep; subst hstep) <;>
    simp [sends_append, sends]

/-- The state with one accepted indication outstanding is reachable and has the sender
loop past the call, about to wait. -/
theorem at_most_one_in_flight_witness :
    run init (schedule_to_indicate ++ [Event.comm 0]) = some state_in_flight ∧
    state_in_flight.pending = 1 ∧ state_in_flight.pending ≤ 1 ∧
    (state_in_flight.pc = Pc.wait ∨ state_in_flight.pc = Pc.blocked) :=
  have hrun : run init (schedule_to_indicate ++ [Event.comm 0]) = some state_in_flight := by
    decide
  have h := at_most_one_in_flight (schedule_to_indicate ++ [Event.comm 0]) state_in_flight hrun
  ⟨hrun, rfl, h.1, h.2.2.1 rfl⟩

/-- C5: for every state of the sender loop at its gate test with the gate closed, the
step only logs "No indication set up, data dropped" and returns to the get: no call
of `bt_gatt_indicate`, no lock of the mutex, no write to the send parameters, no put
on the queue; and a whole iteration started at the get with a record at the head of
the queue and the gate closed removes that record from the queue and ends at the next
get with nothing but the get and two log lines performed, the record being lost. -/
theorem gate_suppression (s : State) (d : sensor_data) (q : List sensor_data)
    (r1 r2 : Int) (hpc : s.pc = Pc.get) (hq : s.sensor_queue = d :: q)
    (hg : s.sensor_indicate = 0) :
    (∀ u : State, u.pc = Pc.check → u.sensor_indicate = 0 →
      step u (Event.comm r2) =
        some { u with pc := Pc.get, trace := u.trace ++ [Call.log LogMsg.data_dropped] }) ∧
    step s (Event.comm r1) =
      some { s with
        sensor_queue := q, data := some d, pc := Pc.check,
        trace := s.trace ++
          [Call.msgq_get d, Call.log (LogMsg.sensor_data_received d.lumens)] } ∧
    run s [Event.comm r1, Event.comm r2] =
      some { s with
        sensor_queue := q, data := some d, pc := Pc.get,
        trace := s.trace ++
          [Call.msgq_get d, Call.log (LogMsg.sensor_data_received d.lumens),
           Call.log LogMsg.data_dropped] } := by
  refine ⟨?_, ?_, ?_⟩
  · intro u hu hgu
    simp [step, comm_thread_entry, hu, hgu]
  · simp [step, comm_thread_entry, hpc, hq, k_msgq_get]
  · simp [run, step, comm_thread_entry, hpc, hq, hg, k_msgq_get]

theorem gate_suppression_witness :
    run (meas_button_interrupt init) [Event.comm 0, Event.comm 0] =
      some { meas_button_interrupt init with
        sensor_queue := [], data := some ⟨0x12345600⟩, pc := Pc.get,
        trace := (meas_button_interrupt init).trace ++
          [Call.msgq_get ⟨0x12345600⟩, Call.log (LogMsg.sensor_data_received 0x12345600),
           Call.log LogMsg.data_dropped] } :=
  (gate_suppression (meas_button_interrupt init) ⟨0x12345600⟩ [] 0 0 rfl rfl rfl).2.2

/-- C6: for every reachable state of the sender loop at the call of `bt_gatt_indicate`
(gate found open, record dequeued), if the call returns non-zero then the loop logs
the error and goes straight to the unlock, without any wait on the condition
variable; the next step unlocks the mutex and is back at the get with the mutex not
held, the queue and the pending count unchanged and exactly this one call of
`bt_gatt_indicate` made.  A whole iteration from the get with the gate open and a
rejected send performs one get, one call of `bt_gatt_indicate` and no put. -/
theorem send_rejection (tr : List Event) (s : State) (ret r2 : Int)
    (hreach : run init tr = some s) (hpc : s.pc = Pc.indicate) (hret : ret ≠ 0) :
    s.indicating_mutex = 1 ∧
    (∃ d, s.data = some d ∧
      step s (Event.comm ret) =
        some { s with
          pc := Pc.unlock,
          trace := s.trace ++
            [Call.gatt_indicate (some d) SIZEOF_SENSOR_DATA ret,
             Call.log LogMsg.cannot_complete] } ∧
      run s [Event.comm ret, Event.comm r2] =
        some { s with
          indicating_mutex := 0, pc := Pc.get,
          trace := s.trace ++
            [Call.gatt_indicate (some d) SIZEOF_SENSOR_DATA ret,
             Call.log LogMsg.cannot_complete, Call.mutex_unlock] }) ∧
    (∀ (tr0 : List Event) (u : State) (d : sensor_data) (q : List sensor_data),
      run init tr0 = some u → u.pc = Pc.get → u.sensor_queue = d :: q →
      u.sensor_indicate ≠ 0 →
      run u (List.replicate 6 (Event.comm ret)) =
        some { u with
          sensor_queue := q, data := some d,
          sensor_indicate_params := ⟨some DataPtr.local_data, SIZEOF_SENSOR_DATA⟩,
          indicating_mutex := 0, pc := Pc.get,
          trace := u.trace ++
            [Call.msgq_get d, Call.log (LogMsg.sensor_data_received d.lumens),
             Call.log LogMsg.indicating_new_value,
             Call.params_write DataPtr.local_data SIZEOF_SENSOR_DATA, Call.mutex_lock,
             Call.gatt_indicate (some d) SIZEOF_SENSOR_DATA ret,
             Call.log LogMsg.cannot_complete, Call.mutex_unlock] }) := by
  have hinv := inv_run inv_init hreach
  have hm : s.indicating_mutex = 1 := by
    have := hinv.mutex_pc
    rw [hpc] at this
    exact this
  have hp : s.sensor_indicate_params = ⟨some DataPtr.local_data, SIZEOF_SENSOR_DATA⟩ :=
    hinv.params_pc (by rw [hpc]; rfl)
  obtain ⟨d, hd⟩ : ∃ d, s.data = some d :=
    Option.ne_none_iff_exists'.mp (hinv.data_pc (by rw [hpc]; decide))
  refine ⟨hm, ⟨d, hd, ?_, ?_⟩, ?_⟩
  · simp [step, comm_thread_entry, hpc, hret, payload, hp, hd]
  · simp [run, step, comm_thread_entry, hpc, hret, payload, hp, hd, hm]
  · intro tr0 u e q hu hupc huq hug
    have huinv := inv_run inv_init hu
    have hum : u.indicating_mutex = 0 := by
      have := huinv.mutex_pc
      rw [hupc] at this
      exact this
    simp [List.replicate, run, step, comm_thread_entry, hupc, huq, hug, hret, k_msgq_get,
      payload, hum]

/-- A send rejected with -128 at `state_at_indicate`: the loop holds the mutex at the
call, and two steps later is at the get with the mutex released. -/
theorem send_rejection_witness :
    run init schedule_to_indicate = some state_at_indicate ∧
    state_at_indicate.indicating_mutex = 1 ∧
    ∃ d, state_at_indicate.data = some d ∧
      run state_at_indicate [Event.comm (-128), Event.comm 0] =
        some { state_at_indicate with
          indicating_mutex := 0, pc := Pc.get,
          trace := state_at_indicate.trace ++
            [Call.gatt_indicate (some d) SIZEOF_SENSOR_DATA (-128),
             Call.log LogMsg.cannot_complete, Call.mutex_unlock] } :=
  have hrun : run init schedule_to_indicate = some state_at_indicate := by decide
  have h := send_rejection schedule_to_indicate state_at_indicate (-128) 0 hrun rfl
    (by decide)
  ⟨hrun, h.1, h.2.1.imp fun _ hd => ⟨hd.1, hd.2.2⟩⟩

/-- Once the sender loop is blocked on the condition variable with no completion
pending, it stays so under every schedule. -/
theorem blocked_forever (tr : List Event) (s t : State) (hpc : s.pc = Pc.blocked)
    (hp : s.pending = 0) (h : run s tr = some t) :
    t.pc = Pc.blocked ∧ t.pending = 0 ∧ sends t.trace = sends s.trace := by
  induction tr generalizing s with
  | nil =>
    simp only [run, Option.some.injEq] at h
    subst h
    exact ⟨hpc, hp, rfl⟩
  | cons e es ih =>
    simp only [run] at h
    cases hst : step s e with
    | none => simp [hst] at h
    | some u =>
      rw [hst] at h
      have hu : u.pc = Pc.blocked ∧ u.pending = 0 ∧ sends u.trace = sends s.trace := by
        cases e with
        | comm ret => simp [step, comm_thread_entry, hpc] at hst
        | button =>
          simp only [step, Option.some.injEq] at hst
          subst hst
          simp [meas_button_interrupt, hpc, hp, sends_append, sends]
        | ccc_write value =>
          simp only [step, Option.some.injEq] at hst
          subst hst
          simp [write_sensor_ccc, hpc, hp, sends_append, sends]
        | indicate_done err => simp [step, indicate_complete, hp] at hst
      obtain ⟨h1, h2, h3⟩ := ih u hu.1 hu.2.1 h
      exact ⟨h1, h2, h3.trans hu.2.2⟩

/-- C7: the code loses the completion signal when `sensor_indicate_end` runs between the
return of `bt_gatt_indicate` and the entry into `k_condvar_wait`.  With the gate open
and one record enqueued, the send is accepted, the completion endpoint is then
invoked exactly once, and the sender loop next enters `k_condvar_wait`: it is blocked
on the condition variable with no completion pending, neither a sender step nor a
completion is enabled, exactly one send has been issued, and under every further
schedule the loop stays blocked and issues no other send. -/
theorem completion_signal_lost :
    ∃ s, run init
        [Event.ccc_write BT_GATT_CCC_INDICATE, Event.button, Event.comm 0, Event.comm 0,
          Event.comm 0, Event.comm 0, Event.comm 0, Event.indicate_done 0, Event.comm 0] =
        some s ∧
      s.pc = Pc.blocked ∧ s.pending = 0 ∧ s.sensor_indicate ≠ 0 ∧
      sends s.trace = [(some ⟨0x12345600⟩, SIZEOF_SENSOR_DATA, 0)] ∧
      step s (Event.comm 0) = none ∧ step s (Event.indicate_done 0) = none ∧
      ∀ tr t, run s tr = some t →
        t.pc = Pc.blocked ∧ t.pending = 0 ∧
        sends t.trace = [(some ⟨0x12345600⟩, SIZEOF_SENSOR_DATA, 0)] := by
  refine ⟨_, rfl, by decide, by decide, by decide, by decide, by decide, by decide, ?_⟩
  intro tr t ht
  exact blocked_forever tr _ t rfl rfl ht

/-- C10 as stated fails: with the gate open and one record dequeued, the sender loop
reaches the two assignments to `sensor_indicate_params` with `indicating_mutex` not
held, performs them, and still does not hold the mutex afterwards; no call of
`k_mutex_lock` has been made up to that point. -/
theorem params_written_unlocked :
    ∃ s t, run init
        [Event.ccc_write BT_GATT_CCC_INDICATE, Event.button, Event.comm 0, Event.comm 0] =
        some s ∧
      s.pc = Pc.bind ∧ s.indicating_mutex = 0 ∧
      step s (Event.comm 0) = some t ∧
      s.sensor_indicate_params = ⟨none, 0⟩ ∧
      t.sensor_indicate_params = ⟨some DataPtr.local_data, SIZEOF_SENSOR_DATA⟩ ∧
      t.indicating_mutex = 0 ∧
      Call.params_write DataPtr.local_data SIZEOF_SENSOR_DATA ∈ t.trace ∧
      Call.mutex_lock ∉ t.trace := by
  refine ⟨_, _, rfl, ?_, ?_, rfl, ?_⟩ <;> decide

/-- Every step appends calls to the trace, and a step that performs a write to the send
parameters is the binding step of the sender loop, which leaves the lock count as it
found it. -/
theorem step_params_write {s t : State} {e : Event} (hstep : step s e = some t) :
    ∃ new, t.trace = s.trace ++ new ∧
      ((∃ p len, Call.params_write p len ∈ new) →
        s.pc = Pc.bind ∧ t.indicating_mutex = s.indicating_mutex ∧ ∃ r, e = Event.comm r) := by
  cases e with
  | comm r =>
    simp only [step] at hstep
    obtain ⟨q, c, g, p, m, d, pc, n, trc⟩ := s
    cases pc <;> simp only [comm_thread_entry] at hstep
    case get =>
      cases q with
      | nil => simp [k_msgq_get] at hstep
      | cons x xs =>
        simp only [k_msgq_get, Option.some.injEq] at hstep
        subst hstep
        exact ⟨_, rfl, by simp⟩
    case bind =>
      simp only [Option.some.injEq] at hstep
      subst hstep
      exact ⟨_, rfl, fun _ => ⟨rfl, rfl, r, rfl⟩⟩
    case check =>
      split at hstep <;> (simp only [Option.some.injEq] at hstep; subst hstep) <;>
        exact ⟨_, rfl, by simp⟩
    case indicate =>
      split at hstep <;> (simp only [Option.some.injEq] at hstep; subst hstep) <;>
        exact ⟨_, rfl, by simp⟩
    case blocked => simp at hstep
    all_goals
      simp only [Option.some.injEq] at hstep
      subst hstep
      exact ⟨_, rfl, by simp⟩
  | button =>
    simp only [step, Option.some.injEq] at hstep
    subst hstep
    exact ⟨_, rfl, by simp⟩
  | ccc_write value =>
    simp only [step, Option.some.injEq] at hstep
    subst hstep
    exact ⟨_, rfl, by simp⟩
  | indicate_done err =>
    simp only [step, indicate_complete] at hstep
    split at hstep
    · simp at hstep
    · simp only [Option.some.injEq] at hstep
      subst hstep
      exact ⟨[Call.log (LogMsg.indication_result (err != 0)),
        Call.log LogMsg.indication_complete, Call.condvar_signal],
        by simp [sensor_indicate_end, sensor_indicate_start, k_condvar_signal], by simp⟩

/-- C10 amended: for every dequeued record with the gate open, in every reachable state
the sender loop first binds the record as the payload (writes
`sensor_indicate_params.data` and `.len`) while `indicating_mutex` is not held, only
then locks the mutex, and invokes `bt_gatt_indicate` while holding it, with the
parameters designating the dequeued record and length 4; a step that changes the
value of the send parameters, and likewise a step that performs a write to them (a
`Call.params_write` among the calls it appends to the trace), is that binding step of
the sender loop, taken and left with the mutex not held. -/
theorem params_bound_then_locked (tr : List Event) (s : State) (ret : Int)
    (h : run init tr = some s) :
    (s.pc = Pc.bind → s.indicating_mutex = 0 ∧
      step s (Event.comm ret) =
        some { s with
          sensor_indicate_params := ⟨some DataPtr.local_data, SIZEOF_SENSOR_DATA⟩,
          pc := Pc.lock,
          trace := s.trace ++ [Call.params_write DataPtr.local_data SIZEOF_SENSOR_DATA] }) ∧
    (s.pc = Pc.lock → s.indicating_mutex = 0 ∧
      s.sensor_indicate_params = ⟨some DataPtr.local_data, SIZEOF_SENSOR_DATA⟩ ∧
      step s (Event.comm ret) =
        some { s with
          indicating_mutex := 1, pc := Pc.indicate,
          trace := s.trace ++ [Call.mutex_lock] }) ∧
    (s.pc = Pc.indicate → s.indicating_mutex = 1 ∧
      s.sensor_indicate_params = ⟨some DataPtr.local_data, SIZEOF_SENSOR_DATA⟩ ∧
      payload s = s.data ∧ s.data ≠ none) ∧
    (∀ e t, step s e = some t → t.sensor_indicate_params ≠ s.sensor_indicate_params →
      s.pc = Pc.bind ∧ s.indicating_mutex = 0 ∧ ∃ r, e = Event.comm r) ∧
    (∀ e t, step s e = some t →
      ∃ new, t.trace = s.trace ++ new ∧
        ((∃ p len, Call.params_write p len ∈ new) →
          s.pc = Pc.bind ∧ s.indicating_mutex = 0 ∧ t.indicating_mutex = 0 ∧
          ∃ r, e = Event.comm r)) := by
  have hinv := inv_run inv_init h
  have hm := hinv.mutex_pc
  refine ⟨?_, ?_, ?_, ?_, ?_⟩
  rotate_left 4
  · intro e t hstep
    obtain ⟨new, hnew, hw⟩ := step_params_write hstep
    refine ⟨new, hnew, fun hmem => ?_⟩
    obtain ⟨hpc, hmt, hr⟩ := hw hmem
    rw [hpc] at hm
    have hm0 : s.indicating_mutex = 0 := hm
    exact ⟨hpc, hm0, by rw [hmt, hm0], hr⟩
  · intro hpc
    rw [hpc] at hm
    exact ⟨hm, by simp [step, comm_thread_entry, hpc]⟩
  · intro hpc
    rw [hpc] at hm
    have hm0 : s.indicating_mutex = 0 := hm
    exact ⟨hm0, hinv.params_pc (by rw [hpc]; rfl), by simp [step, comm_thread_entry, hpc, hm0]⟩
  · intro hpc
    rw [hpc] at hm
    have hp := hinv.params_pc (by rw [hpc]; rfl)
    exact ⟨hm, hp, by simp [payload, hp], hinv.data_pc (by rw [hpc]; decide)⟩
  · intro e t hstep hne
    cases e with
    | comm r =>
      simp only [step] at hstep
      obtain ⟨q, c, g, p, m, d, pc, n, trc⟩ := s
      cases pc <;> simp only [comm_thread_entry] at hstep
      case get =>
        cases q with
        | nil => simp [k_msgq_get] at hstep
        | cons x xs =>
          simp only [k_msgq_get, Option.some.injEq] at hstep
          subst hstep
          simp at hne
      case bind => exact ⟨rfl, by simpa [mutexAt] using hm, r, rfl⟩
      case check =>
        split at hstep <;> (simp only [Option.some.injEq] at hstep; subst hstep) <;>
          simp at hne
      case indicate =>
        split at hstep <;> (simp only [Option.some.injEq] at hstep; subst hstep) <;>
          simp at hne
      case blocked => simp at hstep
      all_goals
        simp only [Option.some.injEq] at hstep
        subst hstep
        simp at hne
    | button =>
      simp only [step, Option.some.injEq] at hstep
      subst hstep
      simp [meas_button_interrupt] at hne
    | ccc_write value =>
      simp only [step, Option.some.injEq] at hstep
      subst hstep
      simp [write_sensor_ccc] at hne
    | indicate_done err =>
      simp only [step, indicate_complete] at hstep
      split at hstep
      · simp at hstep
      · simp only [Option.some.injEq] at hstep
        subst hstep
        simp [sensor_indicate_end, sensor_indicate_start, k_condvar_signal] at hne

/-- At `state_at_indicate` the mutex is held and the parameters designate the dequeued
record with length 4. -/
theorem params_bound_then_locked_witness :
    run init schedule_to_indicate = some state_at_indicate ∧
    state_at_indicate.indicating_mutex = 1 ∧
    state_at_indicate.sensor_indicate_params =
      ⟨some DataPtr.local_data, SIZEOF_SENSOR_DATA⟩ ∧
    payload state_at_indicate = state_at_indicate.data ∧
    state_at_indicate.data ≠ none :=
  have hrun : run init schedule_to_indicate = some state_at_indicate := by decide
  ⟨hrun, (params_bound_then_locked schedule_to_indicate state_at_indicate 0 hrun).2.2.1 rfl⟩

theorem accepted_append (a b : List Call) : accepted (a ++ b) = accepted a ++ accepted b := by
  induction a with
  | nil => rfl
  | cons c cs ih =>
    cases c <;> simp [accepted, ih]
    split <;> simp

theorem fifo_start : Fifo (write_sensor_ccc init BT_GATT_CCC_INDICATE) := by
  constructor
  · decide
  · exact inv_step inv_init (e := Event.ccc_write BT_GATT_CCC_INDICATE) rfl
  · decide
  · decide

theorem fifo_step {s t : State} {e : Event} (h : Fifo s) (he : gate_open_accepting e = true)
    (hs : step s e = some t) : Fifo t := by
  obtain ⟨hg, hinv, hq, hsd⟩ := h
  have hinv2 := inv_step hinv hs
  have hp := hinv.params_pc
  have hd := hinv.data_pc
  cases e with
  | comm ret =>
    simp only [gate_open_accepting, decide_eq_true_eq] at he
    subst he
    simp only [step] at hs
    obtain ⟨q, c, g, p, m, d, pc, n, trc⟩ := s
    cases pc <;> simp only [comm_thread_entry] at hs
    case get =>
      cases q with
      | nil => simp [k_msgq_get] at hs
      | cons x xs =>
        simp only [k_msgq_get, Option.some.injEq] at hs
        subst hs
        refine ⟨hg, hinv2, ?_, ?_⟩
        · simp_all [accepted_append, gets_append, accepted, gets]
        · simp_all [sends_append, gets_append, sends, gets, in_hand]
    case check =>
      simp only [ne_eq] at hg
      simp only [ne_eq, hg, not_false_eq_true, ite_true, Option.some.injEq] at hs
      subst hs
      refine ⟨hg, hinv2, ?_, ?_⟩
      · simp_all [accepted_append, gets_append, accepted, gets]
      · simp_all [sends_append, gets_append, sends, gets, in_hand]
    case indicate =>
      simp only [ite_true, Option.some.injEq] at hs
      subst hs
      have hp2 := hp rfl
      simp only at hp2
      subst hp2
      obtain ⟨x, rfl⟩ : ∃ x, d = some x := Option.ne_none_iff_exists'.mp (hd (by simp))
      refine ⟨hg, hinv2, ?_, ?_⟩
      · simp_all [accepted_append, gets_append, accepted, gets]
      · simp_all [sends_append, gets_append, sends, gets, in_hand, payload, sent]
    case blocked => simp at hs
    all_goals
      simp only [Option.some.injEq] at hs
      subst hs
      refine ⟨hg, hinv2, ?_, ?_⟩
      · simp_all [accepted_append, gets_append, accepted, gets]
      · simp_all [sends_append, gets_append, sends, gets, in_hand]
  | button =>
    simp only [step, Option.some.injEq] at hs
    subst hs
    refine ⟨hg, hinv2, ?_, ?_⟩
    · simp only [meas_button_interrupt, k_msgq_put, accepted_append, gets_append, hq]
      split <;> simp [accepted, gets, ENOMSG]
    · simpa [meas_button_interrupt, sends_append, gets_append, sends, gets, in_hand] using hsd
  | ccc_write value =>
    simp only [gate_open_accepting, decide_eq_true_eq] at he
    subst he
    simp only [step, Option.some.injEq] at hs
    subst hs
    refine ⟨by simp [write_sensor_ccc], hinv2, ?_, ?_⟩
    · simpa [write_sensor_ccc, accepted_append, gets_append, accepted, gets] using hq
    · simpa [write_sensor_ccc, sends_append, gets_append, sends, gets, in_hand] using hsd
  | indicate_done err =>
    simp only [step, indicate_complete] at hs
    split at hs
    · simp at hs
    · rename_i hpn
      simp only [Option.some.injEq] at hs
      subst hs
      have hpc : s.pc = Pc.wait ∨ s.pc = Pc.blocked :=
        hinv.pending_pc (by have := hinv.pending_le; omega)
      refine ⟨hg, hinv2, ?_, ?_⟩
      · simpa [sensor_indicate_end, sensor_indicate_start, k_condvar_signal,
          accepted_append, gets_append, accepted, gets] using hq
      · rcases hpc with hpc | hpc <;>
          simpa [sensor_indicate_end, sensor_indicate_start, k_condvar_signal,
            sends_append, gets_append, sends, gets, in_hand, hpc] using hsd

theorem fifo_run {tr : List Event} {s t : State} (h : Fifo s)
    (htr : ∀ e ∈ tr, gate_open_accepting e = true) (hs : run s tr = some t) : Fifo t := by
  induction tr generalizing s with
  | nil =>
    simp only [run, Option.some.injEq] at hs
    exact hs ▸ h
  | cons e es ih =>
    simp only [run] at hs
    cases hst : step s e with
    | none => simp [hst] at hs
    | some u =>
      rw [hst] at hs
      exact ih (fifo_step h (htr e (by simp)) hst) (fun x hx => htr x (by simp [hx])) hs

theorem send_cycle_run (s : State) (d : sensor_data) (q : List sensor_data)
    (hpc : s.pc = Pc.get) (hq : s.sensor_queue = d :: q) (hg : s.sensor_indicate ≠ 0)
    (hm : s.indicating_mutex = 0) (hp : s.pending = 0) :
    run s send_cycle =
      some { s with
        sensor_queue := q, data := some d,
        sensor_indicate_params := ⟨some DataPtr.local_data, SIZEOF_SENSOR_DATA⟩,
        indicating_mutex := 0, pc := Pc.get, pending := 0,
        trace := s.trace ++
          [Call.msgq_get d, Call.log (LogMsg.sensor_data_received d.lumens),
           Call.log LogMsg.indicating_new_value,
           Call.params_write DataPtr.local_data SIZEOF_SENSOR_DATA, Call.mutex_lock,
           Call.gatt_indicate (some d) SIZEOF_SENSOR_DATA 0, Call.log LogMsg.start_waiting,
           Call.condvar_wait, Call.log (LogMsg.indication_result false),
           Call.log LogMsg.indication_complete, Call.condvar_signal,
           Call.log LogMsg.condition_set, Call.mutex_unlock] } := by
  simp [send_cycle, List.replicate, run, step, comm_thread_entry, indicate_complete,
    sensor_indicate_end, sensor_indicate_start, k_condvar_signal, k_msgq_get, payload,
    hpc, hq, hg, hm, hp]

theorem deliver_all (es : List sensor_data) (s : State)
    (hpc : s.pc = Pc.get) (hq : s.sensor_queue = es) (hg : s.sensor_indicate ≠ 0)
    (hm : s.indicating_mutex = 0) (hp : s.pending = 0) :
    ∃ t, run s (deliver es.length) = some t ∧
      sends t.trace = sends s.trace ++ es.map sent ∧
      accepted t.trace = accepted s.trace ∧
      t.pc = Pc.get ∧ t.sensor_queue = [] ∧ t.indicating_mutex = 0 ∧ t.pending = 0 ∧
      t.sensor_indicate = s.sensor_indicate := by
  induction es generalizing s with
  | nil => exact ⟨s, rfl, by simp, rfl, hpc, hq, hm, hp, rfl⟩
  | cons d q ih =>
    obtain ⟨u, hc, hu⟩ : ∃ u, run s send_cycle = some u ∧ u = _ :=
      ⟨_, send_cycle_run s d q hpc hq hg hm hp, rfl⟩
    obtain ⟨t, h1, h2, h3, h4, h5, h6, h7, h8⟩ :=
      ih u (by rw [hu]) (by rw [hu]) (by rw [hu]; exact hg) (by rw [hu]) (by rw [hu])
    refine ⟨t, ?_, ?_, ?_, h4, h5, h6, h7, ?_⟩
    · simp only [List.length_cons, deliver, run_append, hc, Option.bind_some]
      exact h1
    · rw [h2, hu]
      simp [sends_append, sends, sent]
    · rw [h3, hu]
      simp [accepted_append, accepted]
    · rw [h8, hu]

theorem put_all_accepted (es q : List sensor_data)
    (h : q.length + es.length ≤ SENSOR_QUEUE_MAX_MSGS) :
    put_all q es = (q ++ es, List.replicate es.length 0) := by
  induction es generalizing q with
  | nil => simp [put_all]
  | cons d ds ih =>
    simp only [List.length_cons] at h
    have hlt : q.length < SENSOR_QUEUE_MAX_MSGS := by omega
    simp only [put_all, k_msgq_put, hlt, ite_true]
    rw [ih (q ++ [d]) (by simp; omega)]
    simp [List.replicate_succ]

theorem deliver_accepting (n : Nat) : ∀ e ∈ deliver n, gate_open_accepting e = true := by
  induction n with
  | zero => simp [deliver]
  | succ n ih =>
    intro e he
    simp only [deliver, List.mem_append] at he
    rcases he with he | he
    · revert e
      decide
    · exact ih e he

/-- Delivery in order when every completion reaches the pended sender: for every
sequence of records that the queue accepts one after the other (at most 16, every put
returning 0) and that the sender loop finds queued at its get with the gate open and
nothing in flight, the run in which `bt_gatt_indicate` returns 0 for every send and
the completion endpoint is invoked while the sender is pended in `k_condvar_wait`
issues exactly one send per record, the i-th carrying the i-th record with length 4,
in enqueue order, and ends at the get with the queue empty, where the loop blocks.
Moreover, under every schedule in which the gate stays open and every send is
accepted, with button interrupts and completions interleaved at any time, the sends
issued, then the record in the hands of the loop, then the queue contents are always
exactly the accepted records in enqueue order: none duplicated or reordered. -/
theorem deliver_in_order (es : List sensor_data) (s : State)
    (hlen : es.length ≤ SENSOR_QUEUE_MAX_MSGS)
    (hpc : s.pc = Pc.get) (hq : s.sensor_queue = es) (hg : s.sensor_indicate ≠ 0)
    (hm : s.indicating_mutex = 0) (hp : s.pending = 0) :
    put_all [] es = (es, List.replicate es.length 0) ∧
    (∃ t, run s (deliver es.length) = some t ∧
      sends t.trace = sends s.trace ++ es.map sent ∧
      (sends t.trace).length = (sends s.trace).length + es.length ∧
      accepted t.trace = accepted s.trace ∧
      t.pc = Pc.get ∧ t.sensor_queue = [] ∧ t.indicating_mutex = 0 ∧ t.pending = 0 ∧
      step t (Event.comm 0) = none) ∧
    (∀ e ∈ deliver es.length, gate_open_accepting e = true) ∧
    (∀ tr u, (∀ e ∈ tr, gate_open_accepting e = true) →
      run (write_sensor_ccc init BT_GATT_CCC_INDICATE) tr = some u →
      sends u.trace ++ (in_hand u ++ u.sensor_queue).map sent =
        (accepted u.trace).map sent) := by
  refine ⟨?_, ?_, deliver_accepting es.length, ?_⟩
  · simpa using put_all_accepted es [] (by simpa using hlen)
  · obtain ⟨t, h1, h2, h3, h4, h5, h6, h7, -⟩ := deliver_all es s hpc hq hg hm hp
    refine ⟨t, h1, h2, by simp [h2], h3, h4, h5, h6, h7, ?_⟩
    simp [step, comm_thread_entry, h4, h5, k_msgq_get]
  · intro tr u htr hu
    have hf := fifo_run fifo_start htr hu
    rw [hf.queue, List.map_append, List.map_append, ← List.append_assoc, hf.sends]

/-- One record produced by the button with the gate open, completion reaching the
pended sender: one send with payload 0x12345600, then the loop blocks at the get. -/
theorem deliver_in_order_single :
    ∃ t, run (meas_button_interrupt (write_sensor_ccc init BT_GATT_CCC_INDICATE)) (deliver 1) =
        some t ∧
      sends t.trace = [(some ⟨0x12345600⟩, 4, 0)] ∧
      (sends t.trace).length = 1 ∧
      accepted t.trace = [⟨0x12345600⟩] ∧
      t.pc = Pc.get ∧ t.sensor_queue = [] ∧ t.indicating_mutex = 0 ∧ t.pending = 0 ∧
      step t (Event.comm 0) = none :=
  (deliver_in_order [⟨0x12345600⟩]
    (meas_button_interrupt (write_sensor_ccc init BT_GATT_CCC_INDICATE))
    (by decide) rfl rfl (by decide) rfl rfl).2.1

/-- C2: the code does not deliver every accepted record when a completion is invoked
before the sender loop has entered `k_condvar_wait`.  With the gate open, two records
are enqueued and both accepted (no drop); the first send is accepted and its
completion endpoint is invoked once, between the return of `bt_gatt_indicate` and the
entry into the wait.  Every event of the schedule keeps the gate open and accepts the
send, and nothing is left pending; yet exactly one send has been issued, the second
record is still in the queue, the loop is pended on the condition variable, and under
every further schedule it issues no other send. -/
theorem fifo_delivery_stalls :
    ∃ s, run init
        [Event.ccc_write BT_GATT_CCC_INDICATE, Event.button, Event.button, Event.comm 0,
          Event.comm 0, Event.comm 0, Event.comm 0, Event.comm 0, Event.indicate_done 0,
          Event.comm 0] = some s ∧
      (∀ e ∈ [Event.ccc_write BT_GATT_CCC_INDICATE, Event.button, Event.button,
          Event.comm 0, Event.comm 0, Event.comm 0, Event.comm 0, Event.comm 0,
          Event.indicate_done 0, Event.comm 0], gate_open_accepting e = true) ∧
      accepted s.trace = [⟨0x12345600⟩, ⟨0x12345601⟩] ∧ drops s.trace = 0 ∧
      s.sensor_indicate ≠ 0 ∧ s.pending = 0 ∧
      sends s.trace = [sent ⟨0x12345600⟩] ∧
      s.sensor_queue = [⟨0x12345601⟩] ∧ s.pc = Pc.blocked ∧
      step s (Event.comm 0) = none ∧ step s (Event.indicate_done 0) = none ∧
      ∀ tr t, run s tr = some t →
        t.pc = Pc.blocked ∧ t.pending = 0 ∧ sends t.trace = [sent ⟨0x12345600⟩] := by
  refine ⟨_, rfl, by decide, by decide, by decide, by decide, by decide, by decide,
    by decide, by decide, by decide, by decide, ?_⟩
  intro tr t ht
  exact blocked_forever tr _ t rfl rfl ht

end LightMeter
